import Mathlib

/-
Verification of the moodle_manager domain-synchronization core.

Shallow embedding of:
  src/credential_manager.py  (CredentialManager)
  src/config_manager.py      (ConfigManager / LMSConfig)
  src/moodle_rest.py         (MoodleRestClient)
  src/data_models.py         (LMS / Category / Course / Section / Module / User graph)

Mutable Python objects with identity are embedded as an arena (`World`):
each entity lives at a numeric address, containers hold addresses, and a
back-reference is `Option Nat` (an address, or `none` for Python `None`).
External collaborators (the `cryptography` Fernet cipher, PBKDF2, and the
HTTP transport) are embedded by their documented contracts, since they are
third-party libraries and not code of this repository.
-/

namespace MoodleManager

/-! ## Credential manager (src/credential_manager.py) -/

/-- Key produced by `_get_encryption_key`: PBKDF2-HMAC-SHA256, 100000
iterations, the fixed salt `b'lms_explorer_salt'`.  The KDF is an external
library modelled by its contract: a deterministic function of the input
password, injective on passwords (no collisions are assumed reachable), so a
derived key is represented by the password it came from. -/
structure DerivedKey where
  ofPassword : String
deriving DecidableEq, Repr, Inhabited

/-- Model of `_get_encryption_key`'s KDF step (base64-urlsafe encoding of the
derived bytes is a bijection and is elided). -/
def pbkdf2FixedSalt (password : String) : DerivedKey :=
  DerivedKey.mk password

/-- Model of `_get_machine_specific_key`: an opaque machine fingerprint used
when no master password is supplied. -/
def machineSpecificKey : String :=
  "machine-fingerprint"

/-- Model of `_get_encryption_key(password)`: if `password is None` the
machine-specific key is used, then the KDF is applied. -/
def getEncryptionKey (password : Option String) : DerivedKey :=
  pbkdf2FixedSalt (password.getD machineSpecificKey)

/-- Fernet ciphertext (the `base64.b64encode` wrapper applied by
`encrypt_password` is a bijection and is elided).  Fernet is authenticated
encryption: a token decrypts only under the key that produced it, so the
contract model records that key alongside the plaintext. -/
structure FernetToken where
  key : DerivedKey
  plaintext : String
deriving DecidableEq, Repr, Inhabited

/-- Contract model of `Fernet(key).encrypt`. -/
def fernetEncrypt (key : DerivedKey) (msg : String) : FernetToken :=
  FernetToken.mk key msg

/-- Contract model of `Fernet(key).decrypt`: `none` models the
`InvalidToken` exception raised on a wrong key or tampered token. -/
def fernetDecrypt (key : DerivedKey) (tok : FernetToken) : Option String :=
  if tok.key = key then some tok.plaintext else none

/-- State of a `CredentialManager` instance relevant to encryption:
`fernet` is `None` until `_initialize_encryption` runs, afterwards it holds
the cipher (determined by its key). -/
structure CredentialManager where
  fernet : Option DerivedKey
deriving DecidableEq, Repr, Inhabited

/-- A freshly constructed `CredentialManager()` (`self._fernet = None`). -/
def CredentialManager.new : CredentialManager :=
  CredentialManager.mk none

/-- Model of `_initialize_encryption(password)`: a no-op when the cipher
already exists, otherwise derives the key and builds the cipher.  Also
returns the cipher key subsequently used by the caller (`self._fernet`). -/
def CredentialManager.initEncryption (cm : CredentialManager)
    (password : Option String) : CredentialManager × DerivedKey :=
  match cm.fernet with
  | some k => (cm, k)
  | none =>
      let k := getEncryptionKey password
      (CredentialManager.mk (some k), k)

/-- Model of `encrypt_password(password, master_password)`: initialize the
cipher (first call only), then encrypt.  Returns the updated instance state
and the ciphertext. -/
def CredentialManager.encrypt_password (cm : CredentialManager)
    (password : String) (master_password : Option String) :
    CredentialManager × FernetToken :=
  let p := cm.initEncryption master_password
  (p.1, fernetEncrypt p.2 password)

/-- Model of `decrypt_password(encrypted_password, master_password)`: the
whole body is wrapped in `try/except` returning `""`, so a failed
decryption yields the empty string, never an exception. -/
def CredentialManager.decrypt_password (cm : CredentialManager)
    (encrypted_password : FernetToken) (master_password : Option String) :
    CredentialManager × String :=
  let p := cm.initEncryption master_password
  match fernetDecrypt p.2 encrypted_password with
  | some plain => (p.1, plain)
  | none => (p.1, "")

/-! ## Config manager (src/config_manager.py) -/

/-- Model of `LMSConfig`. -/
structure LMSConfig where
  name : String
  url : String
  username : String
  password : String
  service : String
  autoconnect : Bool
  remember_me : Bool
deriving DecidableEq, Repr, Inhabited

/-- Model of `ConfigManager`: `configs` is the insertion-ordered dict
`section_name -> LMSConfig` (Python dicts preserve insertion order). -/
structure ConfigManager where
  configs : List (String × LMSConfig)
deriving DecidableEq, Repr, Inhabited

/-- Model of `get_autoconnect_config`: iterate `self.configs.values()` in
insertion order and return the first config whose `autoconnect` flag is
set, else `None`. -/
def ConfigManager.get_autoconnect_config (cm : ConfigManager) :
    Option LMSConfig :=
  (cm.configs.map Prod.snd).find? (fun c => c.autoconnect)

/-! ## Moodle REST client (src/moodle_rest.py) -/

/-- Decoded JSON value (the shape `response.json()` can produce). -/
inductive JsonValue where
  | obj : List (String × JsonValue) → JsonValue
  | arr : List JsonValue → JsonValue
  | str : String → JsonValue
  | num : Int → JsonValue
  | boolean : Bool → JsonValue
  | null : JsonValue

/-- Dictionary lookup: `data[k]` for a JSON object; `none` when the value
is not an object or lacks the key. -/
def JsonValue.getKey : JsonValue → String → Option JsonValue
  | JsonValue.obj fields, k => (fields.find? (fun kv => kv.1 == k)).map Prod.snd
  | _, _ => none

/-- Model of `isinstance(data, dict) and k in data`. -/
def JsonValue.hasKey (d : JsonValue) (k : String) : Bool :=
  (d.getKey k).isSome

/-- Outcome of one HTTP exchange, as seen by the client code.
`transportError` covers `requests` exceptions including the non-2xx status
raised by `raise_for_status`; `badJson` covers `json.JSONDecodeError`;
`json d` is a successfully decoded body. -/
inductive HttpResult where
  | transportError : HttpResult
  | badJson : HttpResult
  | json : JsonValue → HttpResult

/-- Model of `MoodleRestClient` state. -/
structure MoodleRestClient where
  host : String
  username : String
  password : String
  service : String
  token : String
deriving DecidableEq, Repr, Inhabited

/-- Model of `is_connected`. -/
def MoodleRestClient.is_connected (c : MoodleRestClient) : Bool :=
  c.token != ""

/-- Token extracted by `MoodleRestClient.connect` from the token-endpoint
response: present exactly when the body decoded to a JSON object carrying a
`token` entry (Moodle token responses carry string tokens). -/
def handshakeToken : HttpResult → Option String
  | HttpResult.json d =>
      match d.getKey "token" with
      | some (JsonValue.str t) => some t
      | _ => none
  | _ => none

/-- Model of `MoodleRestClient.connect`: on success stores the token and
returns `True`; on an error body, malformed JSON, or transport error it
returns `False` and leaves the client state untouched. -/
def MoodleRestClient.connect (c : MoodleRestClient) (resp : HttpResult) :
    MoodleRestClient × Bool :=
  match handshakeToken resp with
  | some t => ({ c with token := t }, true)
  | none => (c, false)

/-- Model of `_make_request(function, params)`: the `resp` argument stands
for the outcome of the HTTP POST to the web-service endpoint (the URL and
parameter wiring do not affect the returned value).  Returns `none` when
not connected, on transport error, on a JSON decode error, or when the
decoded body is a dict containing an `exception` key. -/
def MoodleRestClient.make_request (c : MoodleRestClient)
    (_wsfunction : String) (resp : HttpResult) : Option JsonValue :=
  if c.is_connected then
    match resp with
    | HttpResult.transportError => none
    | HttpResult.badJson => none
    | HttpResult.json data =>
        if data.hasKey "exception" then none else some data
  else none

/-! ## Domain object graph (src/data_models.py)

Entities are arena-allocated; `Option Nat` back-references model the
Python parent pointers (`None` or an object reference).  Only the fields
read or written by the orchestration and the add/remove pairs are kept. -/

/-- Model of `Category` (fields `_id`, `_name`, `_lms`, `_courses`). -/
structure Category where
  id : Int
  name : String
  lms : Option Nat
  courses : List Nat
deriving DecidableEq, Repr, Inhabited

/-- Model of `Course` (fields `_id`, `_name`, `_category`, `_lms`,
`_course_content`, `_enrolled_users`). -/
structure Course where
  id : Int
  name : String
  category : Option Nat
  lms : Option Nat
  course_content : List Nat
  enrolled_users : List Nat
deriving DecidableEq, Repr, Inhabited

/-- Model of `Section` (fields `_id`, `_name`, `_course`, `_modules`). -/
structure Section where
  id : Int
  name : String
  course : Option Nat
  modules : List Nat
deriving DecidableEq, Repr, Inhabited

/-- Model of `Module`; `sec` models the `_section` back-reference. -/
structure Module where
  id : Int
  mod_name : String
  name : String
  sec : Option Nat
deriving DecidableEq, Repr, Inhabited

/-- Model of `User` (the fields the claims touch). -/
structure User where
  id : Int
  first_name : String
  last_name : String
  course : Option Nat
deriving DecidableEq, Repr, Inhabited

/-- Model of `LMS`. -/
structure LMS where
  name : String
  host : String
  token : String
  username : String
  password : String
  service : String
  categories : List Nat
  courses : List Nat
  enrolled_courses : List Nat
deriving DecidableEq, Repr, Inhabited

/-- The arena of live objects: an address is an index into the list of its
entity kind. -/
structure World where
  lmss : List LMS
  cats : List Category
  crss : List Course
  secs : List Section
  mods : List Module
  usrs : List User
deriving DecidableEq, Repr, Inhabited

/-- In-place update of the element at index `i` (no-op out of range),
modelling mutation of the object at that address. -/
def updNth {α : Type} (f : α → α) : Nat → List α → List α
  | _, [] => []
  | 0, x :: xs => f x :: xs
  | n + 1, x :: xs => x :: updNth f n xs

/-- The LMS object at address `l` (junk default out of range; theorems
carry validity hypotheses). -/
def lmsAt (w : World) (l : Nat) : LMS := (w.lmss[l]?).getD default

/-- The Category object at address `a`. -/
def catAt (w : World) (a : Nat) : Category := (w.cats[a]?).getD default

/-- The Course object at address `a`. -/
def crsAt (w : World) (a : Nat) : Course := (w.crss[a]?).getD default

/-- The Section object at address `a`. -/
def secAt (w : World) (a : Nat) : Section := (w.secs[a]?).getD default

/-- The Module object at address `a`. -/
def modAt (w : World) (a : Nat) : Module := (w.mods[a]?).getD default

/-- The User object at address `a`. -/
def usrAt (w : World) (a : Nat) : User := (w.usrs[a]?).getD default

/-- Mutate the LMS object at address `l`. -/
def World.setLms (w : World) (l : Nat) (f : LMS → LMS) : World :=
  { w with lmss := updNth f l w.lmss }

/-- Mutate the Category object at address `a`. -/
def World.setCat (w : World) (a : Nat) (f : Category → Category) : World :=
  { w with cats := updNth f a w.cats }

/-- Mutate the Course object at address `a`. -/
def World.setCrs (w : World) (a : Nat) (f : Course → Course) : World :=
  { w with crss := updNth f a w.crss }

/-- Mutate the Section object at address `a`. -/
def World.setSec (w : World) (a : Nat) (f : Section → Section) : World :=
  { w with secs := updNth f a w.secs }

/-- Mutate the Module object at address `a`. -/
def World.setMod (w : World) (a : Nat) (f : Module → Module) : World :=
  { w with mods := updNth f a w.mods }

/-- Mutate the User object at address `a`. -/
def World.setUsr (w : World) (a : Nat) (f : User → User) : World :=
  { w with usrs := updNth f a w.usrs }

/-! ### Add/remove pairs (bidirectional links) -/

/-- Model of `LMS.add_category`: `category.set_lms(self)` then
`self._categories.append(category)`. -/
def LMS.add_category (w : World) (l c : Nat) : World :=
  (w.setCat c (fun cat => { cat with lms := some l })).setLms l
    (fun lm => { lm with categories := lm.categories ++ [c] })

/-- Model of `LMS.remove_category`: guarded by membership;
`list.remove` drops the first occurrence, then `category.set_lms(None)`. -/
def LMS.remove_category (w : World) (l c : Nat) : World :=
  if c ∈ (lmsAt w l).categories then
    (w.setLms l (fun lm => { lm with categories := lm.categories.erase c })).setCat c
      (fun cat => { cat with lms := none })
  else w

/-- Model of `LMS.add_course`. -/
def LMS.add_course (w : World) (l c : Nat) : World :=
  (w.setCrs c (fun crs => { crs with lms := some l })).setLms l
    (fun lm => { lm with courses := lm.courses ++ [c] })

/-- Model of `LMS.remove_course`. -/
def LMS.remove_course (w : World) (l c : Nat) : World :=
  if c ∈ (lmsAt w l).courses then
    (w.setLms l (fun lm => { lm with courses := lm.courses.erase c })).setCrs c
      (fun crs => { crs with lms := none })
  else w

/-- Model of `Category.add_course`: `course.set_category(self)` then
append. -/
def Category.add_course (w : World) (ca c : Nat) : World :=
  (w.setCrs c (fun crs => { crs with category := some ca })).setCat ca
    (fun cat => { cat with courses := cat.courses ++ [c] })

/-- Model of `Category.remove_course`. -/
def Category.remove_course (w : World) (ca c : Nat) : World :=
  if c ∈ (catAt w ca).courses then
    (w.setCat ca (fun cat => { cat with courses := cat.courses.erase c })).setCrs c
      (fun crs => { crs with category := none })
  else w

/-- Model of `Course.add_section`: `section.set_course(self)` then append
to `self._course_content`. -/
def Course.add_section (w : World) (c s : Nat) : World :=
  (w.setSec s (fun sct => { sct with course := some c })).setCrs c
    (fun crs => { crs with course_content := crs.course_content ++ [s] })

/-- Model of `Course.remove_section`: removes the section from
`self._course_content` but — unlike every other remove pair in the file —
does NOT clear `section._course`. -/
def Course.remove_section (w : World) (c s : Nat) : World :=
  if s ∈ (crsAt w c).course_content then
    w.setCrs c (fun crs => { crs with course_content := crs.course_content.erase s })
  else w

/-- Model of `Section.add_module`. -/
def Section.add_module (w : World) (s m : Nat) : World :=
  (w.setMod m (fun md => { md with sec := some s })).setSec s
    (fun sct => { sct with modules := sct.modules ++ [m] })

/-- Model of `Section.remove_module`. -/
def Section.remove_module (w : World) (s m : Nat) : World :=
  if m ∈ (secAt w s).modules then
    (w.setSec s (fun sct => { sct with modules := sct.modules.erase m })).setMod m
      (fun md => { md with sec := none })
  else w

/-- Model of `Course.add_enrolled_user`: `user.set_course(self)` then
append. -/
def Course.add_enrolled_user (w : World) (c u : Nat) : World :=
  (w.setUsr u (fun us => { us with course := some c })).setCrs c
    (fun crs => { crs with enrolled_users := crs.enrolled_users ++ [u] })

/-- Model of `Course.remove_enrolled_user`. -/
def Course.remove_enrolled_user (w : World) (c u : Nat) : World :=
  if u ∈ (crsAt w c).enrolled_users then
    (w.setCrs c (fun crs => { crs with enrolled_users := crs.enrolled_users.erase u })).setUsr u
      (fun us => { us with course := none })
  else w

/-! ### Data loading orchestration -/

/-- One record of the `core_course_get_categories` response; fields are
optional because the Python code reads them with `dict.get` defaults. -/
structure CatRecord where
  id : Option Int
  name : Option String
deriving DecidableEq, Repr, Inhabited

/-- One record of a course-listing response. -/
structure CourseRecord where
  id : Option Int
  fullname : Option String
  categoryid : Option Int
deriving DecidableEq, Repr, Inhabited

/-- The record returned by `get_user_by_field('username', ...)`. -/
structure UserRecord where
  id : Option Int
deriving DecidableEq, Repr, Inhabited

/-- Results of the four client calls `load_lms_data` drives.  `none`
models both a failed call (the client returns `None`; any exception in a
sub-step is caught by that sub-step's `try/except`) and an absent
payload. -/
structure MoodleData where
  categoriesResp : Option (List CatRecord)
  coursesResp : Option (List CourseRecord)
  userResp : Option UserRecord
  usersCoursesResp : Option (List CourseRecord)
deriving DecidableEq, Repr, Inhabited

/-- `Category(category_id=..., name=...)` as built by `load_categories`,
followed by `category.set_lms(self)`. -/
def Category.mkFromRecord (l : Nat) (r : CatRecord) : Category :=
  { id := r.id.getD 0
    name := r.name.getD ("Category " ++ toString (r.id.getD 0))
    lms := some l
    courses := [] }

/-- `Course(course_id=..., name=...)` as built by `load_courses` /
`load_enrolled_courses` (before any parent pointers are set). -/
def Course.mkFromRecord (r : CourseRecord) : Course :=
  { id := r.id.getD 0
    name := r.fullname.getD ("Course " ++ toString (r.id.getD 0))
    category := none
    lms := none
    course_content := []
    enrolled_users := [] }

/-- Model of `get_category_by_id`: scan `self._categories` in order for
the first category whose `_id` matches. -/
def LMS.get_category_by_id (w : World) (l : Nat) (category_id : Int) :
    Option Nat :=
  (lmsAt w l).categories.find? (fun a =>
    match w.cats[a]? with
    | some cat => cat.id == category_id
    | none => false)

/-- One iteration of the `load_categories` loop: construct the category
(its address is the arena length), set its back-reference, append its
address to `self._categories`. -/
def load_categories_step (l : Nat) (w : World) (r : CatRecord) : World :=
  ({ w with cats := w.cats ++ [Category.mkFromRecord l r] }).setLms l
    (fun lm => { lm with categories := lm.categories ++ [w.cats.length] })

/-- The `load_categories` loop body over the record list. -/
def load_categories_loop (l : Nat) : World → List CatRecord → World
  | w, [] => w
  | w, r :: rs => load_categories_loop l (load_categories_step l w r) rs

/-- Model of `load_categories`: a `None` response (failed call or caught
exception) leaves the world unchanged; an empty list is equally a no-op
(`if categories_data:`). -/
def LMS.load_categories (w : World) (l : Nat)
    (resp : Option (List CatRecord)) : World :=
  match resp with
  | some rs => load_categories_loop l w rs
  | none => w

/-- `course = Course(...)` followed by `course.set_lms(self)`: allocate
the course at the next address. -/
def allocCourse (l : Nat) (w : World) (r : CourseRecord) : World :=
  { w with crss := w.crss ++ [{ Course.mkFromRecord r with lms := some l }] }

/-- One iteration of the `load_courses` loop: construct the course and
`course.set_lms(self)`; then, if `categoryid > 0` and a matching category
is loaded, `course.set_category(category)` and `category.add_course(course)`;
if `categoryid <= 0` append to `self._courses`; otherwise (positive
`categoryid`, no matching category) the course is attached nowhere. -/
def load_courses_step (l : Nat) (w : World) (r : CourseRecord) : World :=
  if 0 < r.categoryid.getD 0 then
    match LMS.get_category_by_id (allocCourse l w r) l (r.categoryid.getD 0) with
    | some ca =>
        Category.add_course
          ((allocCourse l w r).setCrs w.crss.length
            (fun c => { c with category := some ca })) ca w.crss.length
    | none => allocCourse l w r
  else
    (allocCourse l w r).setLms l
      (fun lm => { lm with courses := lm.courses ++ [w.crss.length] })

/-- The `load_courses` loop body over the record list. -/
def load_courses_loop (l : Nat) : World → List CourseRecord → World
  | w, [] => w
  | w, r :: rs => load_courses_loop l (load_courses_step l w r) rs

/-- Model of `load_courses`. -/
def LMS.load_courses (w : World) (l : Nat)
    (resp : Option (List CourseRecord)) : World :=
  match resp with
  | some rs => load_courses_loop l w rs
  | none => w

/-- One iteration of the `load_enrolled_courses` loop: construct the
course, `course.set_lms(self)`, append to `self._enrolled_courses`. -/
def load_enrolled_step (l : Nat) (w : World) (r : CourseRecord) : World :=
  (allocCourse l w r).setLms l
    (fun lm => { lm with enrolled_courses := lm.enrolled_courses ++ [w.crss.length] })

/-- The `load_enrolled_courses` loop body. -/
def load_enrolled_loop (l : Nat) : World → List CourseRecord → World
  | w, [] => w
  | w, r :: rs => load_enrolled_loop l (load_enrolled_step l w r) rs

/-- Model of `load_enrolled_courses`: resolve the user id via the by-field
lookup; only when it is positive fetch and attach the enrolled courses. -/
def LMS.load_enrolled_courses (w : World) (l : Nat)
    (userResp : Option UserRecord)
    (enrolledResp : Option (List CourseRecord)) : World :=
  match userResp with
  | none => w
  | some u =>
      if 0 < u.id.getD 0 then
        match enrolledResp with
        | some rs => load_enrolled_loop l w rs
        | none => w
      else w

/-- Model of `load_lms_data`: clear the three lists, then run the three
sub-steps in order (each sub-step catches its own exceptions, modelled by
`none` responses). -/
def LMS.load_lms_data (w : World) (l : Nat) (d : MoodleData) : World :=
  LMS.load_enrolled_courses
    (LMS.load_courses
      (LMS.load_categories
        (w.setLms l (fun lm =>
          { lm with categories := [], courses := [], enrolled_courses := [] }))
        l d.categoriesResp)
      l d.coursesResp)
    l d.userResp d.usersCoursesResp

/-- Model of `LMS.connect`: store the credentials on the entity, construct
the REST client and run the token handshake (`resp` is the token-endpoint
exchange outcome); on success store the token, load the data and return
`True`; on failure return `False`. -/
def LMS.connect (w : World) (l : Nat)
    (username password service : String)
    (resp : HttpResult) (d : MoodleData) : World × Bool :=
  let w0 := w.setLms l (fun lm =>
    { lm with username := username, password := password, service := service })
  match handshakeToken resp with
  | some t =>
      let w1 := w0.setLms l (fun lm => { lm with token := t })
      (LMS.load_lms_data w1 l d, true)
  | none => (w0, false)

/-- Consecutive addresses `s, s+1, ..., s+n-1`, as allocated by the load
loops. -/
def addrRange : Nat → Nat → List Nat
  | _, 0 => []
  | s, n + 1 => s :: addrRange (s + 1) n

/-! ### Sample data (used by witnesses and counterexamples) -/

/-- A fresh LMS entity with stored profile fields and no loaded data. -/
def sampleLms : LMS :=
  { name := "lms", host := "http://moodle.example", token := ""
    username := "olduser", password := "oldpass", service := "oldsvc"
    categories := [], courses := [], enrolled_courses := [] }

/-- A world holding exactly one fresh LMS. -/
def connectWorld : World :=
  { lmss := [sampleLms], cats := [], crss := [], secs := [], mods := [], usrs := [] }

/-- Client responses where every call failed. -/
def emptyData : MoodleData :=
  { categoriesResp := none, coursesResp := none, userResp := none
    usersCoursesResp := none }

/-- A catalog whose single course names a category id (2) that no loaded
category (only id 1) carries. -/
def orphanCatalog : MoodleData :=
  { categoriesResp := some [{ id := some 1, name := some "Science" }]
    coursesResp := some [{ id := some 10, fullname := some "Physics", categoryid := some 2 }]
    userResp := none
    usersCoursesResp := none }

/-- A world with one course (address 0) and one unattached section
(address 0). -/
def pairWorld : World :=
  { lmss := [sampleLms], cats := []
    crss := [{ id := 10, name := "Physics", category := none, lms := none
               course_content := [], enrolled_users := [] }]
    secs := [{ id := 100, name := "Week 1", course := none, modules := [] }]
    mods := [], usrs := [] }

/-- A world with one entity of every kind, all memberships already in
place, so that every add/remove operation applies. -/
def genWorld : World :=
  { lmss := [{ sampleLms with categories := [0], courses := [0] }]
    cats := [{ id := 1, name := "Science", lms := some 0, courses := [0] }]
    crss := [{ id := 10, name := "Physics", category := some 0, lms := some 0
               course_content := [0], enrolled_users := [0] }]
    secs := [{ id := 100, name := "Week 1", course := some 0, modules := [0] }]
    mods := [{ id := 1000, mod_name := "resource", name := "Notes", sec := some 0 }]
    usrs := [{ id := 5, first_name := "Ada", last_name := "Lovelace", course := some 0 }] }

/-- A world with one LMS holding one loaded category of id 1. -/
def catWorld : World :=
  { lmss := [{ sampleLms with categories := [0] }]
    cats := [{ id := 1, name := "Science", lms := some 0, courses := [] }]
    crss := [], secs := [], mods := [], usrs := [] }

/-- A course record declaring a category id (2) that no loaded category
carries. -/
def orphanRecord : CourseRecord :=
  { id := some 10, fullname := some "Physics", categoryid := some 2 }

/-- A second, fully successful catalog, disjoint from `orphanCatalog`. -/
def catalogTwo : MoodleData :=
  { categoriesResp := some [{ id := some 7, name := some "Maths" }]
    coursesResp := some [{ id := some 20, fullname := some "Algebra", categoryid := some 0 }]
    userResp := some { id := some 3 }
    usersCoursesResp := some [{ id := some 20, fullname := some "Algebra", categoryid := some 7 }] }

/-- `catalogTwo` with the user lookup failing. -/
def catalogTwoNoUser : MoodleData :=
  { catalogTwo with userResp := none }

/-! ## Theorems -/

/-! ### Credential manager claims -/

/-- Claim C5: for every password string `p` and every fixed master key `k`,
`decrypt_password(encrypt_password(p, k), k)` returns `p` — the
encrypt/decrypt round-trip identity, in any instance state. -/
theorem encrypt_decrypt_roundtrip (cm : CredentialManager) (p k : String) :
    (CredentialManager.decrypt_password
       (cm.encrypt_password p (some k)).1
       (cm.encrypt_password p (some k)).2 (some k)).2 = p := by
  cases h : cm.fernet <;>
    simp [CredentialManager.encrypt_password, CredentialManager.decrypt_password,
      CredentialManager.initEncryption, fernetEncrypt, fernetDecrypt, h]

/-- Counterexample to claim C4 as stated: on a single `CredentialManager`
instance the cipher is initialized by the encrypting call, so the distinct
master key passed to `decrypt_password` is ignored and the decryption
returns the original password, not the empty string. -/
theorem cross_key_decrypt_same_instance_cex :
    (CredentialManager.decrypt_password
       (CredentialManager.new.encrypt_password "secret" (some "key-one")).1
       (CredentialManager.new.encrypt_password "secret" (some "key-one")).2
       (some "key-two")).2 = "secret" ∧
    (CredentialManager.decrypt_password
       (CredentialManager.new.encrypt_password "secret" (some "key-one")).1
       (CredentialManager.new.encrypt_password "secret" (some "key-one")).2
       (some "key-two")).2 ≠ "" := by
  constructor
  · rfl
  · decide

/-- Claim C4, amended: when the decrypting manager derives its cipher from
`k2` (a fresh instance, as after an application restart), a ciphertext
produced under `k1 ≠ k2` decrypts to the empty string and no exception
escapes (`decrypt_password` catches everything). -/
theorem cross_key_decrypt_fresh_instance (p k1 k2 : String) (h : k1 ≠ k2) :
    (CredentialManager.decrypt_password CredentialManager.new
       (CredentialManager.new.encrypt_password p (some k1)).2
       (some k2)).2 = "" := by
  simp [CredentialManager.encrypt_password, CredentialManager.decrypt_password,
    CredentialManager.initEncryption, CredentialManager.new, getEncryptionKey,
    pbkdf2FixedSalt, fernetEncrypt, fernetDecrypt, DerivedKey.mk.injEq, h]

/-- Witness for `cross_key_decrypt_fresh_instance` at concrete keys. -/
theorem cross_key_decrypt_fresh_instance_witness :
    (CredentialManager.decrypt_password CredentialManager.new
       (CredentialManager.new.encrypt_password "pw" (some "alpha")).2
       (some "beta")).2 = "" :=
  cross_key_decrypt_fresh_instance "pw" "alpha" "beta" (by decide)

/-- Claim C10: once a `CredentialManager` instance's cipher exists, every
`encrypt_password`/`decrypt_password` call uses the stored key and its
`master_password` argument is ignored — the outputs do not mention `m` —
while the very first call derives the key from its own argument. -/
theorem master_password_ignored_after_init (cm : CredentialManager)
    (k : DerivedKey) (h : cm.fernet = some k) (p : String)
    (ct : FernetToken) (m : Option String) :
    cm.encrypt_password p m = (cm, fernetEncrypt k p) ∧
    cm.decrypt_password ct m = (cm, (fernetDecrypt k ct).getD "") ∧
    ((CredentialManager.new.encrypt_password p m).1).fernet =
      some (getEncryptionKey m) := by
  refine ⟨?_, ?_, ?_⟩
  · simp [CredentialManager.encrypt_password, CredentialManager.initEncryption, h]
  · cases hd : fernetDecrypt k ct <;>
      simp [CredentialManager.decrypt_password, CredentialManager.initEncryption, h, hd]
  · simp [CredentialManager.encrypt_password, CredentialManager.initEncryption,
      CredentialManager.new]

/-- Witness for `master_password_ignored_after_init`: an initialized
manager encrypts identically under an unrelated later master password. -/
theorem master_password_ignored_after_init_witness :
    (CredentialManager.mk (some (DerivedKey.mk "first"))).encrypt_password
      "pw" (some "later") =
      (CredentialManager.mk (some (DerivedKey.mk "first")),
       fernetEncrypt (DerivedKey.mk "first") "pw") :=
  (master_password_ignored_after_init
    (CredentialManager.mk (some (DerivedKey.mk "first")))
    (DerivedKey.mk "first") rfl "pw"
    (FernetToken.mk (DerivedKey.mk "first") "x") (some "later")).1

/-! ### Config manager claim -/

/-- A successful scan of `find?` pins down the first match. -/
theorem find?_first {α : Type} (p : α → Bool) :
    ∀ (l : List α) (c : α), l.find? p = some c →
      p c = true ∧ ∃ pre post, l = pre ++ c :: post ∧ ∀ x ∈ pre, p x = false := by
  intro l
  induction l with
  | nil => intro c h; cases h
  | cons x xs ih =>
      intro c h
      by_cases hx : p x
      · rw [List.find?_cons_of_pos _ hx] at h
        cases h
        exact ⟨hx, [], xs, rfl, by intro y hy; cases hy⟩
      · rw [List.find?_cons_of_neg _ (by simpa using hx)] at h
        obtain ⟨hc, pre, post, hsplit, hpre⟩ := ih c h
        refine ⟨hc, x :: pre, post, by rw [hsplit]; rfl, ?_⟩
        intro y hy
        rcases List.mem_cons.mp hy with rfl | hy2
        · simpa using hx
        · exact hpre y hy2

/-- Claim C9: `get_autoconnect_config` returns the first stored profile, in
insertion order, whose autoconnect flag is set; it returns `None` exactly
when no profile sets the flag. -/
theorem get_autoconnect_config_spec (cm : ConfigManager) :
    (cm.get_autoconnect_config = none →
       ∀ nc ∈ cm.configs, nc.2.autoconnect = false) ∧
    (∀ c, cm.get_autoconnect_config = some c →
       c.autoconnect = true ∧
       ∃ pre post, cm.configs.map Prod.snd = pre ++ c :: post ∧
         ∀ x ∈ pre, x.autoconnect = false) := by
  constructor
  · intro h nc hmem
    have h2 := List.find?_eq_none.mp h nc.2 (List.mem_map_of_mem Prod.snd hmem)
    simpa using h2
  · intro c h
    have h2 : (cm.configs.map Prod.snd).find? (fun x => x.autoconnect) = some c := h
    exact find?_first _ _ c h2

/-- Witness for `get_autoconnect_config_spec`: with two profiles flagged,
the first in insertion order wins. -/
theorem get_autoconnect_config_spec_witness :
    (ConfigManager.mk
      [("lms1", { name := "a", url := "u1", username := "x", password := ""
                  service := "s", autoconnect := false, remember_me := false }),
       ("lms2", { name := "b", url := "u2", username := "y", password := ""
                  service := "s", autoconnect := true, remember_me := false }),
       ("lms3", { name := "c", url := "u3", username := "z", password := ""
                  service := "s", autoconnect := true, remember_me := false })]
      ).get_autoconnect_config =
      some { name := "b", url := "u2", username := "y", password := ""
             service := "s", autoconnect := true, remember_me := false } ∧
    ({ name := "b", url := "u2", username := "y", password := ""
       service := "s", autoconnect := true, remember_me := false } : LMSConfig).autoconnect = true := by
  constructor
  · rfl
  · exact ((get_autoconnect_config_spec (ConfigManager.mk
      [("lms1", { name := "a", url := "u1", username := "x", password := ""
                  service := "s", autoconnect := false, remember_me := false }),
       ("lms2", { name := "b", url := "u2", username := "y", password := ""
                  service := "s", autoconnect := true, remember_me := false }),
       ("lms3", { name := "c", url := "u3", username := "z", password := ""
                  service := "s", autoconnect := true, remember_me := false })])).2
      _ rfl).1

/-! ### REST client claim -/

/-- Claim C8: a web-service call returns no result (`None`) whenever the
session token is empty, the transport fails, the body is not JSON, or the
body is a dict carrying an `exception` key — and (being total) it raises
nothing to the caller. -/
theorem make_request_failure_none (c : MoodleRestClient) (f : String)
    (resp : HttpResult)
    (h : c.token = "" ∨ resp = HttpResult.transportError ∨
         resp = HttpResult.badJson ∨
         ∃ d, resp = HttpResult.json d ∧ d.hasKey "exception" = true) :
    c.make_request f resp = none := by
  rcases h with h | h | h | ⟨d, hd, hkey⟩
  · simp [MoodleRestClient.make_request, MoodleRestClient.is_connected, h]
  · subst h
    by_cases ht : c.token = "" <;>
      simp [MoodleRestClient.make_request, MoodleRestClient.is_connected, ht]
  · subst h
    by_cases ht : c.token = "" <;>
      simp [MoodleRestClient.make_request, MoodleRestClient.is_connected, ht]
  · subst hd
    by_cases ht : c.token = "" <;>
      simp [MoodleRestClient.make_request, MoodleRestClient.is_connected, ht, hkey]

/-- Witness for `make_request_failure_none`: a connected client receiving a
Moodle exception payload yields no result. -/
theorem make_request_failure_none_witness :
    (MoodleRestClient.mk "http://moodle.example" "u" "p" "svc" "tok").make_request
      "core_course_get_categories"
      (HttpResult.json (JsonValue.obj
        [("exception", JsonValue.str "moodle_exception")])) = none :=
  make_request_failure_none _ _ _
    (Or.inr (Or.inr (Or.inr ⟨_, rfl, rfl⟩)))

/-! ### Arena access lemmas -/

/-- Updating an index preserves the length. -/
theorem length_updNth {α : Type} (f : α → α) (n : Nat) (xs : List α) :
    (updNth f n xs).length = xs.length := by
  induction xs generalizing n with
  | nil => cases n <;> rfl
  | cons x xs ih =>
      cases n with
      | zero => rfl
      | succ n => simpa [updNth] using ih n

/-- Reading back the updated index. -/
theorem getElem?_updNth_self {α : Type} (f : α → α) (n : Nat) (xs : List α) :
    (updNth f n xs)[n]? = (xs[n]?).map f := by
  induction xs generalizing n with
  | nil => cases n <;> rfl
  | cons x xs ih =>
      cases n with
      | zero => simp [updNth]
      | succ n => simpa [updNth] using ih n

/-- Reading back a distinct index. -/
theorem getElem?_updNth_ne {α : Type} (f : α → α) {m n : Nat} (h : m ≠ n)
    (xs : List α) : (updNth f n xs)[m]? = xs[m]? := by
  induction xs generalizing m n with
  | nil => cases n <;> rfl
  | cons x xs ih =>
      cases n with
      | zero =>
          cases m with
          | zero => exact absurd rfl h
          | succ m => simp [updNth]
      | succ n =>
          cases m with
          | zero => simp [updNth]
          | succ m =>
              have h2 : m ≠ n := fun he => h (by rw [he])
              simpa [updNth] using ih h2

/-- In-range update seen through the defaulted read. -/
theorem getD_updNth_self {α : Type} [Inhabited α] (f : α → α) (n : Nat)
    (xs : List α) (h : n < xs.length) :
    ((updNth f n xs)[n]?).getD default = f ((xs[n]?).getD default) := by
  rw [getElem?_updNth_self, List.getElem?_eq_getElem h]
  rfl

theorem lmsAt_setLms_self (w : World) (l : Nat) (f : LMS → LMS)
    (h : l < w.lmss.length) : lmsAt (w.setLms l f) l = f (lmsAt w l) :=
  getD_updNth_self f l w.lmss h

theorem catAt_setCat_self (w : World) (a : Nat) (f : Category → Category)
    (h : a < w.cats.length) : catAt (w.setCat a f) a = f (catAt w a) :=
  getD_updNth_self f a w.cats h

theorem crsAt_setCrs_self (w : World) (a : Nat) (f : Course → Course)
    (h : a < w.crss.length) : crsAt (w.setCrs a f) a = f (crsAt w a) :=
  getD_updNth_self f a w.crss h

theorem secAt_setSec_self (w : World) (a : Nat) (f : Section → Section)
    (h : a < w.secs.length) : secAt (w.setSec a f) a = f (secAt w a) :=
  getD_updNth_self f a w.secs h

theorem modAt_setMod_self (w : World) (a : Nat) (f : Module → Module)
    (h : a < w.mods.length) : modAt (w.setMod a f) a = f (modAt w a) :=
  getD_updNth_self f a w.mods h

theorem usrAt_setUsr_self (w : World) (a : Nat) (f : User → User)
    (h : a < w.usrs.length) : usrAt (w.setUsr a f) a = f (usrAt w a) :=
  getD_updNth_self f a w.usrs h

theorem setLms_cats (w : World) (l : Nat) (f : LMS → LMS) :
    (w.setLms l f).cats = w.cats := rfl

theorem setLms_crss (w : World) (l : Nat) (f : LMS → LMS) :
    (w.setLms l f).crss = w.crss := rfl

theorem setLms_secs (w : World) (l : Nat) (f : LMS → LMS) :
    (w.setLms l f).secs = w.secs := rfl

theorem setLms_mods (w : World) (l : Nat) (f : LMS → LMS) :
    (w.setLms l f).mods = w.mods := rfl

theorem setLms_usrs (w : World) (l : Nat) (f : LMS → LMS) :
    (w.setLms l f).usrs = w.usrs := rfl

theorem setLms_lmss_length (w : World) (l : Nat) (f : LMS → LMS) :
    (w.setLms l f).lmss.length = w.lmss.length :=
  length_updNth f l w.lmss

theorem setCat_lmss (w : World) (a : Nat) (f : Category → Category) :
    (w.setCat a f).lmss = w.lmss := rfl

theorem setCat_crss (w : World) (a : Nat) (f : Category → Category) :
    (w.setCat a f).crss = w.crss := rfl

theorem setCat_secs (w : World) (a : Nat) (f : Category → Category) :
    (w.setCat a f).secs = w.secs := rfl

theorem setCat_mods (w : World) (a : Nat) (f : Category → Category) :
    (w.setCat a f).mods = w.mods := rfl

theorem setCat_usrs (w : World) (a : Nat) (f : Category → Category) :
    (w.setCat a f).usrs = w.usrs := rfl

theorem setCat_cats_length (w : World) (a : Nat) (f : Category → Category) :
    (w.setCat a f).cats.length = w.cats.length :=
  length_updNth f a w.cats

theorem setCrs_lmss (w : World) (a : Nat) (f : Course → Course) :
    (w.setCrs a f).lmss = w.lmss := rfl

theorem setCrs_cats (w : World) (a : Nat) (f : Course → Course) :
    (w.setCrs a f).cats = w.cats := rfl

theorem setCrs_secs (w : World) (a : Nat) (f : Course → Course) :
    (w.setCrs a f).secs = w.secs := rfl

theorem setCrs_mods (w : World) (a : Nat) (f : Course → Course) :
    (w.setCrs a f).mods = w.mods := rfl

theorem setCrs_usrs (w : World) (a : Nat) (f : Course → Course) :
    (w.setCrs a f).usrs = w.usrs := rfl

theorem setCrs_crss_length (w : World) (a : Nat) (f : Course → Course) :
    (w.setCrs a f).crss.length = w.crss.length :=
  length_updNth f a w.crss

theorem setSec_lmss (w : World) (a : Nat) (f : Section → Section) :
    (w.setSec a f).lmss = w.lmss := rfl

theorem setSec_cats (w : World) (a : Nat) (f : Section → Section) :
    (w.setSec a f).cats = w.cats := rfl

theorem setSec_crss (w : World) (a : Nat) (f : Section → Section) :
    (w.setSec a f).crss = w.crss := rfl

theorem setSec_mods (w : World) (a : Nat) (f : Section → Section) :
    (w.setSec a f).mods = w.mods := rfl

theorem setSec_usrs (w : World) (a : Nat) (f : Section → Section) :
    (w.setSec a f).usrs = w.usrs := rfl

theorem setSec_secs_length (w : World) (a : Nat) (f : Section → Section) :
    (w.setSec a f).secs.length = w.secs.length :=
  length_updNth f a w.secs

theorem setMod_lmss (w : World) (a : Nat) (f : Module → Module) :
    (w.setMod a f).lmss = w.lmss := rfl

theorem setMod_cats (w : World) (a : Nat) (f : Module → Module) :
    (w.setMod a f).cats = w.cats := rfl

theorem setMod_crss (w : World) (a : Nat) (f : Module → Module) :
    (w.setMod a f).crss = w.crss := rfl

theorem setMod_secs (w : World) (a : Nat) (f : Module → Module) :
    (w.setMod a f).secs = w.secs := rfl

theorem setMod_usrs (w : World) (a : Nat) (f : Module → Module) :
    (w.setMod a f).usrs = w.usrs := rfl

theorem setUsr_lmss (w : World) (a : Nat) (f : User → User) :
    (w.setUsr a f).lmss = w.lmss := rfl

theorem setUsr_cats (w : World) (a : Nat) (f : User → User) :
    (w.setUsr a f).cats = w.cats := rfl

theorem setUsr_crss (w : World) (a : Nat) (f : User → User) :
    (w.setUsr a f).crss = w.crss := rfl

theorem setUsr_secs (w : World) (a : Nat) (f : User → User) :
    (w.setUsr a f).secs = w.secs := rfl

theorem setUsr_mods (w : World) (a : Nat) (f : User → User) :
    (w.setUsr a f).mods = w.mods := rfl

theorem lmsAt_updCats (w : World) (cs : List Category) (l : Nat) :
    lmsAt { w with cats := cs } l = lmsAt w l := rfl

theorem lmsAt_updCrss (w : World) (cs : List Course) (l : Nat) :
    lmsAt { w with crss := cs } l = lmsAt w l := rfl

theorem catAt_updCrss (w : World) (cs : List Course) (a : Nat) :
    catAt { w with crss := cs } a = catAt w a := rfl

theorem catAt_setLms (w : World) (l a : Nat) (f : LMS → LMS) :
    catAt (w.setLms l f) a = catAt w a := rfl

theorem lmsAt_setCat (w : World) (a l : Nat) (f : Category → Category) :
    lmsAt (w.setCat a f) l = lmsAt w l := rfl

theorem crsAt_setLms (w : World) (l a : Nat) (f : LMS → LMS) :
    crsAt (w.setLms l f) a = crsAt w a := rfl

theorem lmsAt_setCrs (w : World) (a l : Nat) (f : Course → Course) :
    lmsAt (w.setCrs a f) l = lmsAt w l := rfl

theorem crsAt_setCat (w : World) (a c : Nat) (f : Category → Category) :
    crsAt (w.setCat a f) c = crsAt w c := rfl

theorem catAt_setCrs (w : World) (c a : Nat) (f : Course → Course) :
    catAt (w.setCrs c f) a = catAt w a := rfl

theorem secAt_setCrs (w : World) (c a : Nat) (f : Course → Course) :
    secAt (w.setCrs c f) a = secAt w a := rfl

theorem crsAt_setSec (w : World) (a c : Nat) (f : Section → Section) :
    crsAt (w.setSec a f) c = crsAt w c := rfl

theorem modAt_setSec (w : World) (a m : Nat) (f : Section → Section) :
    modAt (w.setSec a f) m = modAt w m := rfl

theorem secAt_setMod (w : World) (m a : Nat) (f : Module → Module) :
    secAt (w.setMod m f) a = secAt w a := rfl

theorem usrAt_setCrs (w : World) (c a : Nat) (f : Course → Course) :
    usrAt (w.setCrs c f) a = usrAt w a := rfl

theorem crsAt_setUsr (w : World) (a c : Nat) (f : User → User) :
    crsAt (w.setUsr a f) c = crsAt w c := rfl

/-! ### Add/remove pair lemmas -/

theorem add_category_spec (w : World) (l c : Nat) (hl : l < w.lmss.length)
    (hc : c < w.cats.length) :
    (catAt (LMS.add_category w l c) c).lms = some l ∧
    (lmsAt (LMS.add_category w l c) l).categories =
      (lmsAt w l).categories ++ [c] := by
  unfold LMS.add_category
  refine ⟨?_, ?_⟩ <;>
    simp [lmsAt_setLms_self, catAt_setCat_self, lmsAt_setCat, catAt_setLms,
      setCat_lmss, setCat_cats_length, hl, hc]

theorem remove_category_spec (w : World) (l c : Nat) (hl : l < w.lmss.length)
    (hc : c < w.cats.length) (hmem : c ∈ (lmsAt w l).categories) :
    (lmsAt (LMS.remove_category w l c) l).categories =
      (lmsAt w l).categories.erase c ∧
    (catAt (LMS.remove_category w l c) c).lms = none := by
  unfold LMS.remove_category
  rw [if_pos hmem]
  refine ⟨?_, ?_⟩ <;>
    simp [lmsAt_setLms_self, catAt_setCat_self, lmsAt_setCat, catAt_setLms,
      setLms_cats, setLms_lmss_length, hl, hc]

theorem add_course_lms_spec (w : World) (l c : Nat) (hl : l < w.lmss.length)
    (hc : c < w.crss.length) :
    (crsAt (LMS.add_course w l c) c).lms = some l ∧
    (lmsAt (LMS.add_course w l c) l).courses = (lmsAt w l).courses ++ [c] := by
  unfold LMS.add_course
  refine ⟨?_, ?_⟩ <;>
    simp [lmsAt_setLms_self, crsAt_setCrs_self, lmsAt_setCrs, crsAt_setLms,
      setCrs_lmss, setCrs_crss_length, hl, hc]

theorem remove_course_lms_spec (w : World) (l c : Nat) (hl : l < w.lmss.length)
    (hc : c < w.crss.length) (hmem : c ∈ (lmsAt w l).courses) :
    (lmsAt (LMS.remove_course w l c) l).courses =
      (lmsAt w l).courses.erase c ∧
    (crsAt (LMS.remove_course w l c) c).lms = none := by
  unfold LMS.remove_course
  rw [if_pos hmem]
  refine ⟨?_, ?_⟩ <;>
    simp [lmsAt_setLms_self, crsAt_setCrs_self, lmsAt_setCrs, crsAt_setLms,
      setLms_crss, setLms_lmss_length, hl, hc]

theorem category_add_course_spec (w : World) (ca c : Nat)
    (hca : ca < w.cats.length) (hc : c < w.crss.length) :
    (crsAt (Category.add_course w ca c) c).category = some ca ∧
    (catAt (Category.add_course w ca c) ca).courses =
      (catAt w ca).courses ++ [c] := by
  unfold Category.add_course
  refine ⟨?_, ?_⟩ <;>
    simp [catAt_setCat_self, crsAt_setCrs_self, catAt_setCrs, crsAt_setCat,
      setCrs_cats, setCrs_crss_length, hca, hc]

theorem category_remove_course_spec (w : World) (ca c : Nat)
    (hca : ca < w.cats.length) (hc : c < w.crss.length)
    (hmem : c ∈ (catAt w ca).courses) :
    (catAt (Category.remove_course w ca c) ca).courses =
      (catAt w ca).courses.erase c ∧
    (crsAt (Category.remove_course w ca c) c).category = none := by
  unfold Category.remove_course
  rw [if_pos hmem]
  refine ⟨?_, ?_⟩ <;>
    simp [catAt_setCat_self, crsAt_setCrs_self, catAt_setCrs, crsAt_setCat,
      setCat_crss, setCat_cats_length, hca, hc]

theorem add_section_spec (w : World) (c s : Nat) (hc : c < w.crss.length)
    (hs : s < w.secs.length) :
    (secAt (Course.add_section w c s) s).course = some c ∧
    (crsAt (Course.add_section w c s) c).course_content =
      (crsAt w c).course_content ++ [s] := by
  unfold Course.add_section
  refine ⟨?_, ?_⟩ <;>
    simp [crsAt_setCrs_self, secAt_setSec_self, crsAt_setSec, secAt_setCrs,
      setSec_crss, setSec_secs_length, hc, hs]

theorem remove_section_facts (w : World) (c s : Nat) (hc : c < w.crss.length)
    (hmem : s ∈ (crsAt w c).course_content) :
    (crsAt (Course.remove_section w c s) c).course_content =
      (crsAt w c).course_content.erase s ∧
    secAt (Course.remove_section w c s) s = secAt w s := by
  unfold Course.remove_section
  rw [if_pos hmem]
  refine ⟨?_, ?_⟩ <;>
    simp [crsAt_setCrs_self, secAt_setCrs, hc]

theorem add_module_spec (w : World) (s m : Nat) (hs : s < w.secs.length)
    (hm : m < w.mods.length) :
    (modAt (Section.add_module w s m) m).sec = some s ∧
    (secAt (Section.add_module w s m) s).modules =
      (secAt w s).modules ++ [m] := by
  unfold Section.add_module
  refine ⟨?_, ?_⟩ <;>
    simp [secAt_setSec_self, modAt_setMod_self, secAt_setMod, modAt_setSec,
      setMod_secs, hm, hs]

theorem remove_module_spec (w : World) (s m : Nat) (hs : s < w.secs.length)
    (hm : m < w.mods.length) (hmem : m ∈ (secAt w s).modules) :
    (secAt (Section.remove_module w s m) s).modules =
      (secAt w s).modules.erase m ∧
    (modAt (Section.remove_module w s m) m).sec = none := by
  unfold Section.remove_module
  rw [if_pos hmem]
  refine ⟨?_, ?_⟩ <;>
    simp [secAt_setSec_self, modAt_setMod_self, secAt_setMod, modAt_setSec,
      setSec_mods, setSec_secs_length, hm, hs]

theorem add_enrolled_user_spec (w : World) (c u : Nat)
    (hc : c < w.crss.length) (hu : u < w.usrs.length) :
    (usrAt (Course.add_enrolled_user w c u) u).course = some c ∧
    (crsAt (Course.add_enrolled_user w c u) c).enrolled_users =
      (crsAt w c).enrolled_users ++ [u] := by
  unfold Course.add_enrolled_user
  refine ⟨?_, ?_⟩ <;>
    simp [crsAt_setCrs_self, usrAt_setUsr_self, crsAt_setUsr, usrAt_setCrs,
      setUsr_crss, hc, hu]

theorem remove_enrolled_user_spec (w : World) (c u : Nat)
    (hc : c < w.crss.length) (hu : u < w.usrs.length)
    (hmem : u ∈ (crsAt w c).enrolled_users) :
    (crsAt (Course.remove_enrolled_user w c u) c).enrolled_users =
      (crsAt w c).enrolled_users.erase u ∧
    (usrAt (Course.remove_enrolled_user w c u) u).course = none := by
  unfold Course.remove_enrolled_user
  rw [if_pos hmem]
  refine ⟨?_, ?_⟩ <;>
    simp [crsAt_setCrs_self, usrAt_setUsr_self, crsAt_setUsr, usrAt_setCrs,
      setCrs_usrs, setCrs_crss_length, hc, hu]

/-- Counterexample to claim C2 as stated: `Course.remove_section` removes
the section from the course's container but does NOT clear the section's
back-reference — after add then remove, the section still points at the
course. -/
theorem remove_section_keeps_backref_cex :
    (crsAt (Course.remove_section (Course.add_section pairWorld 0 0) 0 0)
      0).course_content = [] ∧
    (secAt (Course.remove_section (Course.add_section pairWorld 0 0) 0 0)
      0).course = some 0 ∧
    (secAt (Course.remove_section (Course.add_section pairWorld 0 0) 0 0)
      0).course ≠ none := by
  refine ⟨rfl, rfl, ?_⟩
  decide

/-- Claim C2, amended: for Category↔LMS, Course↔LMS, Course↔Category,
Module↔Section and User↔Course the add operation sets the child's
back-reference and appends it to the parent's container, and the remove
operation (on a present child) removes it and clears the back-reference to
`None`.  For Section↔Course the add operation behaves the same, but
`remove_section` only removes the section from the container and leaves
the section's back-reference untouched. -/
theorem add_remove_pairs_spec (w : World) :
    (∀ l c, l < w.lmss.length → c < w.cats.length →
       (catAt (LMS.add_category w l c) c).lms = some l ∧
       (lmsAt (LMS.add_category w l c) l).categories =
         (lmsAt w l).categories ++ [c]) ∧
    (∀ l c, l < w.lmss.length → c < w.cats.length →
       c ∈ (lmsAt w l).categories →
       (lmsAt (LMS.remove_category w l c) l).categories =
         (lmsAt w l).categories.erase c ∧
       (catAt (LMS.remove_category w l c) c).lms = none) ∧
    (∀ l c, l < w.lmss.length → c < w.crss.length →
       (crsAt (LMS.add_course w l c) c).lms = some l ∧
       (lmsAt (LMS.add_course w l c) l).courses =
         (lmsAt w l).courses ++ [c]) ∧
    (∀ l c, l < w.lmss.length → c < w.crss.length →
       c ∈ (lmsAt w l).courses →
       (lmsAt (LMS.remove_course w l c) l).courses =
         (lmsAt w l).courses.erase c ∧
       (crsAt (LMS.remove_course w l c) c).lms = none) ∧
    (∀ ca c, ca < w.cats.length → c < w.crss.length →
       (crsAt (Category.add_course w ca c) c).category = some ca ∧
       (catAt (Category.add_course w ca c) ca).courses =
         (catAt w ca).courses ++ [c]) ∧
    (∀ ca c, ca < w.cats.length → c < w.crss.length →
       c ∈ (catAt w ca).courses →
       (catAt (Category.remove_course w ca c) ca).courses =
         (catAt w ca).courses.erase c ∧
       (crsAt (Category.remove_course w ca c) c).category = none) ∧
    (∀ c s, c < w.crss.length → s < w.secs.length →
       (secAt (Course.add_section w c s) s).course = some c ∧
       (crsAt (Course.add_section w c s) c).course_content =
         (crsAt w c).course_content ++ [s]) ∧
    (∀ c s, c < w.crss.length → s ∈ (crsAt w c).course_content →
       (crsAt (Course.remove_section w c s) c).course_content =
         (crsAt w c).course_content.erase s ∧
       secAt (Course.remove_section w c s) s = secAt w s) ∧
    (∀ s m, s < w.secs.length → m < w.mods.length →
       (modAt (Section.add_module w s m) m).sec = some s ∧
       (secAt (Section.add_module w s m) s).modules =
         (secAt w s).modules ++ [m]) ∧
    (∀ s m, s < w.secs.length → m < w.mods.length →
       m ∈ (secAt w s).modules →
       (secAt (Section.remove_module w s m) s).modules =
         (secAt w s).modules.erase m ∧
       (modAt (Section.remove_module w s m) m).sec = none) ∧
    (∀ c u, c < w.crss.length → u < w.usrs.length →
       (usrAt (Course.add_enrolled_user w c u) u).course = some c ∧
       (crsAt (Course.add_enrolled_user w c u) c).enrolled_users =
         (crsAt w c).enrolled_users ++ [u]) ∧
    (∀ c u, c < w.crss.length → u < w.usrs.length →
       u ∈ (crsAt w c).enrolled_users →
       (crsAt (Course.remove_enrolled_user w c u) c).enrolled_users =
         (crsAt w c).enrolled_users.erase u ∧
       (usrAt (Course.remove_enrolled_user w c u) u).course = none) :=
  ⟨fun l c hl hc => add_category_spec w l c hl hc,
   fun l c hl hc hm => remove_category_spec w l c hl hc hm,
   fun l c hl hc => add_course_lms_spec w l c hl hc,
   fun l c hl hc hm => remove_course_lms_spec w l c hl hc hm,
   fun ca c hca hc => category_add_course_spec w ca c hca hc,
   fun ca c hca hc hm => category_remove_course_spec w ca c hca hc hm,
   fun c s hc hs => add_section_spec w c s hc hs,
   fun c s hc hm => remove_section_facts w c s hc hm,
   fun s m hs hm => add_module_spec w s m hs hm,
   fun s m hs hm hmem => remove_module_spec w s m hs hm hmem,
   fun c u hc hu => add_enrolled_user_spec w c u hc hu,
   fun c u hc hu hm => remove_enrolled_user_spec w c u hc hu hm⟩

/-- Witness for `add_remove_pairs_spec` on a concrete world, touching each
pair once. -/
theorem add_remove_pairs_spec_witness :
    (catAt (LMS.add_category genWorld 0 0) 0).lms = some 0 ∧
    (lmsAt (LMS.remove_category genWorld 0 0) 0).categories = [] ∧
    (crsAt (LMS.add_course genWorld 0 0) 0).lms = some 0 ∧
    (crsAt (LMS.remove_course genWorld 0 0) 0).lms = none ∧
    (crsAt (Category.add_course genWorld 0 0) 0).category = some 0 ∧
    (crsAt (Category.remove_course genWorld 0 0) 0).category = none ∧
    (secAt (Course.add_section genWorld 0 0) 0).course = some 0 ∧
    secAt (Course.remove_section genWorld 0 0) 0 = secAt genWorld 0 ∧
    (modAt (Section.add_module genWorld 0 0) 0).sec = some 0 ∧
    (modAt (Section.remove_module genWorld 0 0) 0).sec = none ∧
    (usrAt (Course.add_enrolled_user genWorld 0 0) 0).course = some 0 ∧
    (usrAt (Course.remove_enrolled_user genWorld 0 0) 0).course = none :=
  ⟨((add_remove_pairs_spec genWorld).1 0 0 (by decide) (by decide)).1,
   by
     have h := ((add_remove_pairs_spec genWorld).2.1 0 0 (by decide)
       (by decide) (by decide)).1
     simpa using h,
   ((add_remove_pairs_spec genWorld).2.2.1 0 0 (by decide) (by decide)).1,
   ((add_remove_pairs_spec genWorld).2.2.2.1 0 0 (by decide) (by decide)
     (by decide)).2,
   ((add_remove_pairs_spec genWorld).2.2.2.2.1 0 0 (by decide) (by decide)).1,
   ((add_remove_pairs_spec genWorld).2.2.2.2.2.1 0 0 (by decide) (by decide)
     (by decide)).2,
   ((add_remove_pairs_spec genWorld).2.2.2.2.2.2.1 0 0 (by decide)
     (by decide)).1,
   ((add_remove_pairs_spec genWorld).2.2.2.2.2.2.2.1 0 0 (by decide)
     (by decide)).2,
   ((add_remove_pairs_spec genWorld).2.2.2.2.2.2.2.2.1 0 0 (by decide)
     (by decide)).1,
   ((add_remove_pairs_spec genWorld).2.2.2.2.2.2.2.2.2.1 0 0 (by decide)
     (by decide) (by decide)).2,
   ((add_remove_pairs_spec genWorld).2.2.2.2.2.2.2.2.2.2.1 0 0 (by decide)
     (by decide)).1,
   ((add_remove_pairs_spec genWorld).2.2.2.2.2.2.2.2.2.2.2 0 0 (by decide)
     (by decide) (by decide)).2⟩

/-! ### Load orchestration lemmas -/

/-- Membership in a block of consecutive addresses. -/
theorem mem_addrRange (a : Nat) : ∀ (n s : Nat),
    a ∈ addrRange s n ↔ s ≤ a ∧ a < s + n := by
  intro n
  induction n with
  | zero => intro s; simp [addrRange]
  | succ n ih =>
      intro s
      simp only [addrRange, List.mem_cons, ih (s + 1)]
      omega

/-- Reading freshly appended elements back through their addresses. -/
theorem map_addrRange_getElem {α β : Type} (g : α → β) :
    ∀ (ys xs : List α),
      (addrRange xs.length ys.length).map (fun a => ((xs ++ ys)[a]?).map g) =
        ys.map (fun y => some (g y)) := by
  intro ys
  induction ys with
  | nil => intro xs; rfl
  | cons y ys ih =>
      intro xs
      have hhead : ((xs ++ y :: ys)[xs.length]?).map g = some (g y) := by
        rw [List.getElem?_append_right (Nat.le_refl _)]
        simp
      have hsplit : xs ++ y :: ys = (xs ++ [y]) ++ ys := by simp
      have hlen : (xs ++ [y]).length = xs.length + 1 := by simp
      calc (addrRange xs.length (y :: ys).length).map
              (fun a => ((xs ++ y :: ys)[a]?).map g)
          = ((xs ++ y :: ys)[xs.length]?).map g ::
              (addrRange (xs.length + 1) ys.length).map
                (fun a => ((xs ++ y :: ys)[a]?).map g) := rfl
        _ = some (g y) :: (addrRange ((xs ++ [y]).length) ys.length).map
              (fun a => (((xs ++ [y]) ++ ys)[a]?).map g) := by
              rw [hhead, hlen, ← hsplit]
        _ = some (g y) :: ys.map (fun z => some (g z)) := by rw [ih (xs ++ [y])]
        _ = (y :: ys).map (fun z => some (g z)) := rfl

/-- Effect of one iteration of the `load_categories` loop. -/
theorem load_categories_step_facts (l : Nat) (w : World) (r : CatRecord)
    (hl : l < w.lmss.length) :
    (load_categories_step l w r).cats =
      w.cats ++ [Category.mkFromRecord l r] ∧
    (load_categories_step l w r).crss = w.crss ∧
    (load_categories_step l w r).lmss.length = w.lmss.length ∧
    lmsAt (load_categories_step l w r) l =
      { lmsAt w l with categories :=
          (lmsAt w l).categories ++ [w.cats.length] } := by
  unfold load_categories_step
  refine ⟨rfl, rfl, setLms_lmss_length _ _ _, ?_⟩
  simp [lmsAt_setLms_self, hl, lmsAt_updCats]

/-- Effect of the whole `load_categories` loop: the new categories occupy
the next block of addresses, appended in order to `self._categories`. -/
theorem load_categories_loop_spec (l : Nat) (rs : List CatRecord) :
    ∀ (w : World), l < w.lmss.length →
      (load_categories_loop l w rs).cats =
        w.cats ++ rs.map (Category.mkFromRecord l) ∧
      (load_categories_loop l w rs).crss = w.crss ∧
      (load_categories_loop l w rs).lmss.length = w.lmss.length ∧
      lmsAt (load_categories_loop l w rs) l =
        { lmsAt w l with categories :=
            (lmsAt w l).categories ++ addrRange w.cats.length rs.length } := by
  induction rs with
  | nil =>
      intro w hl
      refine ⟨by simp [load_categories_loop], rfl, rfl, ?_⟩
      simp [load_categories_loop, addrRange]
  | cons r rs ih =>
      intro w hl
      obtain ⟨s1, s2, s3, s4⟩ := load_categories_step_facts l w r hl
      have hl1 : l < (load_categories_step l w r).lmss.length := by
        rw [s3]; exact hl
      obtain ⟨i1, i2, i3, i4⟩ := ih (load_categories_step l w r) hl1
      have hunfold : load_categories_loop l w (r :: rs) =
          load_categories_loop l (load_categories_step l w r) rs := rfl
      refine ⟨?_, ?_, ?_, ?_⟩
      · rw [hunfold, i1, s1]; simp
      · rw [hunfold, i2, s2]
      · rw [hunfold, i3, s3]
      · rw [hunfold, i4, s4]
        simp [s1, addrRange]

/-- `setCat` with an id-preserving update leaves every category id
readable through its address unchanged. -/
theorem cats_map_id_setCat (w : World) (ca : Nat) (f : Category → Category)
    (hf : ∀ c, (f c).id = c.id) (a : Nat) :
    ((w.setCat ca f).cats[a]?).map Category.id =
      (w.cats[a]?).map Category.id := by
  by_cases h : a = ca
  · subst h
    rw [show (w.setCat a f).cats = updNth f a w.cats from rfl,
      getElem?_updNth_self]
    cases w.cats[a]? with
    | none => rfl
    | some c => simp [hf]
  · rw [show (w.setCat ca f).cats = updNth f ca w.cats from rfl,
      getElem?_updNth_ne f h]

/-- Effect of one iteration of the `load_courses` loop: one course is
allocated; the LMS's category and enrolled lists are untouched; the course
list gains at most the fresh address; category ids are untouched. -/
theorem load_courses_step_facts (l : Nat) (w : World) (r : CourseRecord)
    (hl : l < w.lmss.length) :
    (load_courses_step l w r).crss.length = w.crss.length + 1 ∧
    (load_courses_step l w r).cats.length = w.cats.length ∧
    (load_courses_step l w r).lmss.length = w.lmss.length ∧
    (lmsAt (load_courses_step l w r) l).categories =
      (lmsAt w l).categories ∧
    (lmsAt (load_courses_step l w r) l).enrolled_courses =
      (lmsAt w l).enrolled_courses ∧
    (∀ a ∈ (lmsAt (load_courses_step l w r) l).courses,
       a ∈ (lmsAt w l).courses ∨ a = w.crss.length) ∧
    (∀ a : Nat, ((load_courses_step l w r).cats[a]?).map Category.id =
       (w.cats[a]?).map Category.id) := by
  unfold load_courses_step
  by_cases hpos : 0 < r.categoryid.getD 0
  · rw [if_pos hpos]
    cases hfind : LMS.get_category_by_id (allocCourse l w r) l
        (r.categoryid.getD 0) with
    | none =>
        exact ⟨by simp [allocCourse], rfl, rfl, rfl, rfl,
          fun a ha => Or.inl ha, fun a => rfl⟩
    | some ca =>
        refine ⟨?_, ?_, rfl, rfl, rfl, fun a ha => Or.inl ha, ?_⟩
        · simp [Category.add_course, World.setCrs, World.setCat, allocCourse,
            length_updNth]
        · simp [Category.add_course, World.setCrs, World.setCat, allocCourse,
            length_updNth]
        · intro a
          exact cats_map_id_setCat
            (((allocCourse l w r).setCrs w.crss.length
                (fun c => { c with category := some ca })).setCrs
              w.crss.length (fun c => { c with category := some ca }))
            ca (fun cat => { cat with courses := cat.courses ++ [w.crss.length] })
            (fun c => rfl) a
  · rw [if_neg hpos]
    refine ⟨?_, rfl, ?_, ?_, ?_, ?_, fun a => rfl⟩
    · show ((allocCourse l w r).setLms l _).crss.length = _
      simp [allocCourse, World.setLms]
    · exact setLms_lmss_length _ _ _
    · simp [lmsAt_setLms_self, hl, allocCourse, lmsAt_updCrss]
    · simp [lmsAt_setLms_self, hl, allocCourse, lmsAt_updCrss]
    · intro a ha
      simp only [lmsAt_setLms_self, hl, allocCourse, lmsAt_updCrss] at ha
      rcases List.mem_append.mp ha with h | h
      · exact Or.inl h
      · exact Or.inr (by simpa using h)

/-- Effect of the whole `load_courses` loop. -/
theorem load_courses_loop_facts (l : Nat) (rs : List CourseRecord) :
    ∀ (w : World), l < w.lmss.length →
      w.crss.length ≤ (load_courses_loop l w rs).crss.length ∧
      (load_courses_loop l w rs).cats.length = w.cats.length ∧
      (load_courses_loop l w rs).lmss.length = w.lmss.length ∧
      (lmsAt (load_courses_loop l w rs) l).categories =
        (lmsAt w l).categories ∧
      (lmsAt (load_courses_loop l w rs) l).enrolled_courses =
        (lmsAt w l).enrolled_courses ∧
      (∀ a ∈ (lmsAt (load_courses_loop l w rs) l).courses,
         a ∈ (lmsAt w l).courses ∨
           (w.crss.length ≤ a ∧ a < (load_courses_loop l w rs).crss.length)) ∧
      (∀ a : Nat, ((load_courses_loop l w rs).cats[a]?).map Category.id =
         (w.cats[a]?).map Category.id) := by
  induction rs with
  | nil =>
      intro w hl
      exact ⟨Nat.le_refl _, rfl, rfl, rfl, rfl,
        fun a ha => Or.inl ha, fun a => rfl⟩
  | cons r rs ih =>
      intro w hl
      obtain ⟨s1, s2, s3, s4, s5, s6, s7⟩ := load_courses_step_facts l w r hl
      have hl1 : l < (load_courses_step l w r).lmss.length := by
        rw [s3]; exact hl
      obtain ⟨i1, i2, i3, i4, i5, i6, i7⟩ :=
        ih (load_courses_step l w r) hl1
      have hunfold : load_courses_loop l w (r :: rs) =
          load_courses_loop l (load_courses_step l w r) rs := rfl
      rw [hunfold]
      refine ⟨?_, ?_, ?_, ?_, ?_, ?_, ?_⟩
      · calc w.crss.length ≤ w.crss.length + 1 := Nat.le_succ _
          _ = (load_courses_step l w r).crss.length := s1.symm
          _ ≤ _ := i1
      · rw [i2, s2]
      · rw [i3, s3]
      · rw [i4, s4]
      · rw [i5, s5]
      · intro a ha
        rcases i6 a ha with h | ⟨h1, h2⟩
        · rcases s6 a h with h' | h'
          · exact Or.inl h'
          · have hs : a < (load_courses_step l w r).crss.length := by
              rw [s1, h']; exact Nat.lt_succ_self _
            exact Or.inr ⟨Nat.le_of_eq h'.symm, Nat.lt_of_lt_of_le hs i1⟩
        · refine Or.inr ⟨?_, h2⟩
          rw [s1] at h1
          omega
      · intro a; rw [i7 a, s7 a]

/-- Effect of one iteration of the `load_enrolled_courses` loop. -/
theorem load_enrolled_step_facts (l : Nat) (w : World) (r : CourseRecord)
    (hl : l < w.lmss.length) :
    (load_enrolled_step l w r).crss.length = w.crss.length + 1 ∧
    (load_enrolled_step l w r).cats = w.cats ∧
    (load_enrolled_step l w r).lmss.length = w.lmss.length ∧
    (lmsAt (load_enrolled_step l w r) l).categories =
      (lmsAt w l).categories ∧
    (lmsAt (load_enrolled_step l w r) l).courses = (lmsAt w l).courses ∧
    (∀ a ∈ (lmsAt (load_enrolled_step l w r) l).enrolled_courses,
       a ∈ (lmsAt w l).enrolled_courses ∨ a = w.crss.length) := by
  unfold load_enrolled_step
  refine ⟨?_, rfl, setLms_lmss_length _ _ _, ?_, ?_, ?_⟩
  · simp [allocCourse, World.setLms]
  · simp [lmsAt_setLms_self, hl, allocCourse, lmsAt_updCrss]
  · simp [lmsAt_setLms_self, hl, allocCourse, lmsAt_updCrss]
  · intro a ha
    simp only [lmsAt_setLms_self, hl, allocCourse, lmsAt_updCrss] at ha
    rcases List.mem_append.mp ha with h | h
    · exact Or.inl h
    · exact Or.inr (by simpa using h)

/-- Effect of the whole `load_enrolled_courses` loop. -/
theorem load_enrolled_loop_facts (l : Nat) (rs : List CourseRecord) :
    ∀ (w : World), l < w.lmss.length →
      w.crss.length ≤ (load_enrolled_loop l w rs).crss.length ∧
      (load_enrolled_loop l w rs).cats = w.cats ∧
      (load_enrolled_loop l w rs).lmss.length = w.lmss.length ∧
      (lmsAt (load_enrolled_loop l w rs) l).categories =
        (lmsAt w l).categories ∧
      (lmsAt (load_enrolled_loop l w rs) l).courses = (lmsAt w l).courses ∧
      (∀ a ∈ (lmsAt (load_enrolled_loop l w rs) l).enrolled_courses,
         a ∈ (lmsAt w l).enrolled_courses ∨
           (w.crss.length ≤ a ∧ a < (load_enrolled_loop l w rs).crss.length)) := by
  induction rs with
  | nil =>
      intro w hl
      exact ⟨Nat.le_refl _, rfl, rfl, rfl, rfl, fun a ha => Or.inl ha⟩
  | cons r rs ih =>
      intro w hl
      obtain ⟨s1, s2, s3, s4, s5, s6⟩ := load_enrolled_step_facts l w r hl
      have hl1 : l < (load_enrolled_step l w r).lmss.length := by
        rw [s3]; exact hl
      obtain ⟨i1, i2, i3, i4, i5, i6⟩ := ih (load_enrolled_step l w r) hl1
      have hunfold : load_enrolled_loop l w (r :: rs) =
          load_enrolled_loop l (load_enrolled_step l w r) rs := rfl
      rw [hunfold]
      refine ⟨?_, ?_, ?_, ?_, ?_, ?_⟩
      · calc w.crss.length ≤ w.crss.length + 1 := Nat.le_succ _
          _ = (load_enrolled_step l w r).crss.length := s1.symm
          _ ≤ _ := i1
      · rw [i2, s2]
      · rw [i3, s3]
      · rw [i4, s4]
      · rw [i5, s5]
      · intro a ha
        rcases i6 a ha with h | ⟨h1, h2⟩
        · rcases s6 a h with h' | h'
          · exact Or.inl h'
          · have hs : a < (load_enrolled_step l w r).crss.length := by
              rw [s1, h']; exact Nat.lt_succ_self _
            exact Or.inr ⟨Nat.le_of_eq h'.symm, Nat.lt_of_lt_of_le hs i1⟩
        · refine Or.inr ⟨?_, h2⟩
          rw [s1] at h1
          omega

/-- Effect of the `load_categories` sub-step for any response. -/
theorem load_categories_facts (w : World) (l : Nat) (hl : l < w.lmss.length)
    (resp : Option (List CatRecord)) :
    (LMS.load_categories w l resp).cats =
      w.cats ++ (resp.getD []).map (Category.mkFromRecord l) ∧
    (LMS.load_categories w l resp).crss = w.crss ∧
    (LMS.load_categories w l resp).lmss.length = w.lmss.length ∧
    lmsAt (LMS.load_categories w l resp) l =
      { lmsAt w l with categories :=
          (lmsAt w l).categories ++ addrRange w.cats.length (resp.getD []).length } := by
  cases resp with
  | none =>
      refine ⟨by simp [LMS.load_categories], rfl, rfl, ?_⟩
      simp [LMS.load_categories, addrRange]
  | some rs => exact load_categories_loop_spec l rs w hl

/-- Effect of the `load_courses` sub-step for any response. -/
theorem load_courses_facts (w : World) (l : Nat) (hl : l < w.lmss.length)
    (resp : Option (List CourseRecord)) :
    w.crss.length ≤ (LMS.load_courses w l resp).crss.length ∧
    (LMS.load_courses w l resp).cats.length = w.cats.length ∧
    (LMS.load_courses w l resp).lmss.length = w.lmss.length ∧
    (lmsAt (LMS.load_courses w l resp) l).categories =
      (lmsAt w l).categories ∧
    (lmsAt (LMS.load_courses w l resp) l).enrolled_courses =
      (lmsAt w l).enrolled_courses ∧
    (∀ a ∈ (lmsAt (LMS.load_courses w l resp) l).courses,
       a ∈ (lmsAt w l).courses ∨
         (w.crss.length ≤ a ∧ a < (LMS.load_courses w l resp).crss.length)) ∧
    (∀ a : Nat, ((LMS.load_courses w l resp).cats[a]?).map Category.id =
       (w.cats[a]?).map Category.id) := by
  cases resp with
  | none =>
      exact ⟨Nat.le_refl _, rfl, rfl, rfl, rfl,
        fun a ha => Or.inl ha, fun a => rfl⟩
  | some rs => exact load_courses_loop_facts l rs w hl

/-- Effect of the `load_enrolled_courses` sub-step for any responses. -/
theorem load_enrolled_facts (w : World) (l : Nat) (hl : l < w.lmss.length)
    (u : Option UserRecord) (e : Option (List CourseRecord)) :
    w.crss.length ≤ (LMS.load_enrolled_courses w l u e).crss.length ∧
    (LMS.load_enrolled_courses w l u e).cats = w.cats ∧
    (LMS.load_enrolled_courses w l u e).lmss.length = w.lmss.length ∧
    (lmsAt (LMS.load_enrolled_courses w l u e) l).categories =
      (lmsAt w l).categories ∧
    (lmsAt (LMS.load_enrolled_courses w l u e) l).courses =
      (lmsAt w l).courses ∧
    (∀ a ∈ (lmsAt (LMS.load_enrolled_courses w l u e) l).enrolled_courses,
       a ∈ (lmsAt w l).enrolled_courses ∨
         (w.crss.length ≤ a ∧
          a < (LMS.load_enrolled_courses w l u e).crss.length)) := by
  cases u with
  | none => exact ⟨Nat.le_refl _, rfl, rfl, rfl, rfl, fun a ha => Or.inl ha⟩
  | some u0 =>
      cases e with
      | none =>
          have hred : LMS.load_enrolled_courses w l (some u0) none = w := by
            by_cases hid : 0 < u0.id.getD 0 <;>
              simp [LMS.load_enrolled_courses, hid]
          rw [hred]
          exact ⟨Nat.le_refl _, rfl, rfl, rfl, rfl, fun a ha => Or.inl ha⟩
      | some rs =>
          by_cases hid : 0 < u0.id.getD 0
          · have hred : LMS.load_enrolled_courses w l (some u0) (some rs) =
                load_enrolled_loop l w rs := by
              simp [LMS.load_enrolled_courses, hid]
            rw [hred]
            exact load_enrolled_loop_facts l rs w hl
          · have hred : LMS.load_enrolled_courses w l (some u0) (some rs) = w := by
              simp [LMS.load_enrolled_courses, hid]
            rw [hred]
            exact ⟨Nat.le_refl _, rfl, rfl, rfl, rfl, fun a ha => Or.inl ha⟩

/-- When the user lookup or the enrolled-courses fetch yields nothing, the
enrolled sub-step changes nothing at all. -/
theorem load_enrolled_noop (w : World) (l : Nat) (u : Option UserRecord)
    (e : Option (List CourseRecord))
    (hfail : u = none ∨ e = none ∨ e = some []) :
    LMS.load_enrolled_courses w l u e = w := by
  rcases hfail with h | h | h
  · subst h; rfl
  · subst h
    cases u with
    | none => rfl
    | some u0 =>
        by_cases hid : 0 < u0.id.getD 0 <;>
          simp [LMS.load_enrolled_courses, hid]
  · subst h
    cases u with
    | none => rfl
    | some u0 =>
        by_cases hid : 0 < u0.id.getD 0 <;>
          simp [LMS.load_enrolled_courses, hid, load_enrolled_loop]

/-- Composed effect of the three load sub-steps starting from an LMS whose
three lists are empty (as after the clearing phase of `load_lms_data`). -/
theorem load_stages_facts (w0 : World) (l : Nat) (hl : l < w0.lmss.length)
    (hcat : (lmsAt w0 l).categories = [])
    (hcrs : (lmsAt w0 l).courses = [])
    (henr : (lmsAt w0 l).enrolled_courses = [])
    (cr : Option (List CatRecord)) (co : Option (List CourseRecord))
    (u : Option UserRecord) (e : Option (List CourseRecord)) :
    (LMS.load_enrolled_courses
        (LMS.load_courses (LMS.load_categories w0 l cr) l co) l u e).lmss.length =
      w0.lmss.length ∧
    (LMS.load_enrolled_courses
        (LMS.load_courses (LMS.load_categories w0 l cr) l co) l u e).cats.length =
      w0.cats.length + (cr.getD []).length ∧
    w0.crss.length ≤
      (LMS.load_enrolled_courses
        (LMS.load_courses (LMS.load_categories w0 l cr) l co) l u e).crss.length ∧
    (lmsAt (LMS.load_enrolled_courses
        (LMS.load_courses (LMS.load_categories w0 l cr) l co) l u e) l).categories =
      addrRange w0.cats.length (cr.getD []).length ∧
    (∀ a ∈ (lmsAt (LMS.load_enrolled_courses
        (LMS.load_courses (LMS.load_categories w0 l cr) l co) l u e) l).courses,
       w0.crss.length ≤ a ∧
       a < (LMS.load_enrolled_courses
        (LMS.load_courses (LMS.load_categories w0 l cr) l co) l u e).crss.length) ∧
    (∀ a ∈ (lmsAt (LMS.load_enrolled_courses
        (LMS.load_courses (LMS.load_categories w0 l cr) l co) l u e) l).enrolled_courses,
       w0.crss.length ≤ a ∧
       a < (LMS.load_enrolled_courses
        (LMS.load_courses (LMS.load_categories w0 l cr) l co) l u e).crss.length) ∧
    ((lmsAt (LMS.load_enrolled_courses
        (LMS.load_courses (LMS.load_categories w0 l cr) l co) l u e) l).categories.map
       (fun a =>
         ((LMS.load_enrolled_courses
            (LMS.load_courses (LMS.load_categories w0 l cr) l co) l u e).cats[a]?).map
           Category.id) =
      (cr.getD []).map (fun rr => some (rr.id.getD 0))) := by
  obtain ⟨a1, a2, a3, a4⟩ := load_categories_facts w0 l hl cr
  have hlA : l < (LMS.load_categories w0 l cr).lmss.length := by
    rw [a3]; exact hl
  obtain ⟨b1, b2, b3, b4, b5, b6, b7⟩ :=
    load_courses_facts (LMS.load_categories w0 l cr) l hlA co
  have hlB : l < (LMS.load_courses (LMS.load_categories w0 l cr) l co).lmss.length := by
    rw [b3]; exact hlA
  obtain ⟨c1, c2, c3, c4, c5, c6⟩ :=
    load_enrolled_facts (LMS.load_courses (LMS.load_categories w0 l cr) l co)
      l hlB u e
  have hAcats : (LMS.load_categories w0 l cr).cats.length =
      w0.cats.length + (cr.getD []).length := by
    rw [a1]; simp
  have hAcategories : (lmsAt (LMS.load_categories w0 l cr) l).categories =
      addrRange w0.cats.length (cr.getD []).length := by
    rw [a4]
    simp [hcat]
  have hAcourses : (lmsAt (LMS.load_categories w0 l cr) l).courses = [] := by
    rw [a4]; exact hcrs
  have hAenrolled :
      (lmsAt (LMS.load_categories w0 l cr) l).enrolled_courses = [] := by
    rw [a4]; exact henr
  have hAcrss : (LMS.load_categories w0 l cr).crss.length = w0.crss.length := by
    rw [a2]
  have hBenrolled :
      (lmsAt (LMS.load_courses (LMS.load_categories w0 l cr) l co) l).enrolled_courses
        = [] := by
    rw [b5, hAenrolled]
  refine ⟨?_, ?_, ?_, ?_, ?_, ?_, ?_⟩
  · rw [c3, b3, a3]
  · rw [c2, b2, hAcats]
  · calc w0.crss.length = (LMS.load_categories w0 l cr).crss.length :=
        hAcrss.symm
      _ ≤ _ := Nat.le_trans b1 c1
  · rw [c4, b4, hAcategories]
  · intro a ha
    rw [c5] at ha
    rcases b6 a ha with h | ⟨h1, h2⟩
    · rw [hAcourses] at h
      cases h
    · constructor
      · rw [hAcrss] at h1; exact h1
      · exact Nat.lt_of_lt_of_le h2 c1
  · intro a ha
    rcases c6 a ha with h | ⟨h1, h2⟩
    · rw [hBenrolled] at h
      cases h
    · constructor
      · have : w0.crss.length ≤
            (LMS.load_courses (LMS.load_categories w0 l cr) l co).crss.length := by
          rw [← hAcrss]; exact b1
        exact Nat.le_trans this h1
      · exact h2
  · rw [c4, b4, hAcategories]
    have hstep1 :
        (addrRange w0.cats.length (cr.getD []).length).map
          (fun a =>
            ((LMS.load_enrolled_courses
              (LMS.load_courses (LMS.load_categories w0 l cr) l co) l u e).cats[a]?).map
              Category.id) =
        (addrRange w0.cats.length (cr.getD []).length).map
          (fun a => ((LMS.load_categories w0 l cr).cats[a]?).map Category.id) := by
      apply List.map_congr_left
      intro a _
      rw [c2]
      exact b7 a
    rw [hstep1, a1]
    have hlen : (cr.getD []).length =
        ((cr.getD []).map (Category.mkFromRecord l)).length := by simp
    rw [hlen, map_addrRange_getElem Category.id ((cr.getD []).map (Category.mkFromRecord l)) w0.cats]
    simp [Category.mkFromRecord]

/-- Full characterization of one `load_lms_data` call: the three lists are
rebuilt from scratch, referencing only freshly allocated addresses, and the
category list mirrors the catalog's records. -/
theorem load_lms_data_facts (w : World) (l : Nat) (hl : l < w.lmss.length)
    (d : MoodleData) :
    (LMS.load_lms_data w l d).lmss.length = w.lmss.length ∧
    (LMS.load_lms_data w l d).cats.length =
      w.cats.length + (d.categoriesResp.getD []).length ∧
    w.crss.length ≤ (LMS.load_lms_data w l d).crss.length ∧
    (lmsAt (LMS.load_lms_data w l d) l).categories =
      addrRange w.cats.length (d.categoriesResp.getD []).length ∧
    (∀ a ∈ (lmsAt (LMS.load_lms_data w l d) l).courses,
       w.crss.length ≤ a ∧ a < (LMS.load_lms_data w l d).crss.length) ∧
    (∀ a ∈ (lmsAt (LMS.load_lms_data w l d) l).enrolled_courses,
       w.crss.length ≤ a ∧ a < (LMS.load_lms_data w l d).crss.length) ∧
    ((lmsAt (LMS.load_lms_data w l d) l).categories.map
       (fun a => ((LMS.load_lms_data w l d).cats[a]?).map Category.id) =
      (d.categoriesResp.getD []).map (fun rr => some (rr.id.getD 0))) := by
  have hl0 : l < (w.setLms l (fun lm =>
      { lm with categories := [], courses := [],
                enrolled_courses := [] })).lmss.length := by
    rw [setLms_lmss_length]; exact hl
  have hclr := lmsAt_setLms_self w l (fun lm =>
      { lm with categories := [], courses := [], enrolled_courses := [] }) hl
  obtain ⟨h1, h2, h3, h4, h5, h6, h7⟩ := load_stages_facts
    (w.setLms l (fun lm =>
      { lm with categories := [], courses := [], enrolled_courses := [] }))
    l hl0 (by rw [hclr]) (by rw [hclr]) (by rw [hclr])
    d.categoriesResp d.coursesResp d.userResp d.usersCoursesResp
  rw [setLms_lmss_length] at h1
  exact ⟨h1, h2, h3, h4, h5, h6, h7⟩

/-- Counterexample to claim C1 as stated: loading a catalog whose single
course carries `categoryid = 2` while only category id 1 exists builds the
Course object but leaves `LMS.courses` empty (and no category holds it
either) — the course is dropped, not attached to the LMS. -/
theorem orphan_course_unreachable_cex :
    (lmsAt (LMS.load_lms_data connectWorld 0 orphanCatalog) 0).courses = [] ∧
    (lmsAt (LMS.load_lms_data connectWorld 0 orphanCatalog) 0).categories = [0] ∧
    (catAt (LMS.load_lms_data connectWorld 0 orphanCatalog) 0).courses = [] ∧
    (LMS.load_lms_data connectWorld 0 orphanCatalog).crss.length = 1 ∧
    (crsAt (LMS.load_lms_data connectWorld 0 orphanCatalog) 0).id = 10 := by
  refine ⟨rfl, rfl, rfl, rfl, rfl⟩

/-- Claim C1, amended: a course record whose `categoryid` is positive but
matches no loaded category is attached nowhere: `load_courses` allocates
the Course (with its `lms` back-reference set) but leaves the LMS object —
in particular `LMS.courses` — and every category untouched, silently
dropping the course.  Only records with `categoryid <= 0` are appended to
`LMS.courses`. -/
theorem load_courses_orphan_dropped (w : World) (l : Nat)
    (r : CourseRecord)
    (hpos : 0 < r.categoryid.getD 0)
    (hmiss : LMS.get_category_by_id w l (r.categoryid.getD 0) = none) :
    LMS.load_courses w l (some [r]) =
      { w with crss := w.crss ++ [{ Course.mkFromRecord r with lms := some l }] } := by
  have hmiss1 : LMS.get_category_by_id (allocCourse l w r) l
      (r.categoryid.getD 0) = none := hmiss
  have hred : LMS.load_courses w l (some [r]) = load_courses_step l w r := rfl
  rw [hred]
  unfold load_courses_step
  rw [if_pos hpos, hmiss1]
  rfl

/-- Witness for `load_courses_orphan_dropped` at a concrete world and
record. -/
theorem load_courses_orphan_dropped_witness :
    LMS.load_courses catWorld 0 (some [orphanRecord]) =
      { catWorld with crss := catWorld.crss ++
          [{ Course.mkFromRecord orphanRecord with lms := some 0 }] } :=
  load_courses_orphan_dropped catWorld 0 orphanRecord
    (by decide) (by decide)

/-- Counterexample to claim C3 as stated: a failed handshake still
overwrites the LMS entity's stored username (and password/service) with
the arguments, so "all other fields are left unchanged" is false; the
token does stay empty and the call returns failure. -/
theorem connect_failure_stores_credentials_cex :
    (LMS.connect connectWorld 0 "newuser" "newpass" "newsvc"
        HttpResult.transportError emptyData).2 = false ∧
    (lmsAt (LMS.connect connectWorld 0 "newuser" "newpass" "newsvc"
        HttpResult.transportError emptyData).1 0).token = "" ∧
    (lmsAt (LMS.connect connectWorld 0 "newuser" "newpass" "newsvc"
        HttpResult.transportError emptyData).1 0).username = "newuser" ∧
    (lmsAt connectWorld 0).username = "olduser" ∧
    "newuser" ≠ "olduser" := by
  refine ⟨rfl, rfl, rfl, rfl, by decide⟩

/-- Claim C3, amended: when the token handshake fails (error body without
a token, malformed JSON, or transport error), `connect` returns failure,
the token and the name/host and all three entity lists are untouched (so
the token stays empty when it was empty) and no entity is created or
mutated — but the credential fields `username`, `password` and `service`
are overwritten with the arguments, since the code stores them before the
handshake. -/
theorem connect_failure_spec (w : World) (l : Nat) (hl : l < w.lmss.length)
    (username password service : String) (resp : HttpResult) (d : MoodleData)
    (hfail : handshakeToken resp = none) :
    (LMS.connect w l username password service resp d).2 = false ∧
    lmsAt (LMS.connect w l username password service resp d).1 l =
      { lmsAt w l with username := username, password := password,
                       service := service } ∧
    (LMS.connect w l username password service resp d).1.cats = w.cats ∧
    (LMS.connect w l username password service resp d).1.crss = w.crss ∧
    (LMS.connect w l username password service resp d).1.secs = w.secs ∧
    (LMS.connect w l username password service resp d).1.mods = w.mods ∧
    (LMS.connect w l username password service resp d).1.usrs = w.usrs := by
  have hred : LMS.connect w l username password service resp d =
      (w.setLms l (fun lm =>
        { lm with username := username, password := password,
                  service := service }), false) := by
    unfold LMS.connect
    rw [hfail]
  rw [hred]
  exact ⟨rfl, lmsAt_setLms_self w l _ hl, rfl, rfl, rfl, rfl, rfl⟩

/-- Witness for `connect_failure_spec` on a concrete world. -/
theorem connect_failure_spec_witness :
    lmsAt (LMS.connect connectWorld 0 "u2" "p2" "s2" HttpResult.badJson
        emptyData).1 0 =
      { lmsAt connectWorld 0 with username := "u2", password := "p2",
                                  service := "s2" } :=
  (connect_failure_spec connectWorld 0 (by decide) "u2" "p2" "s2"
    HttpResult.badJson emptyData rfl).2.1

/-- Claim C6: `load_lms_data` clears prior state — after a second call
with a second catalog, every address held by the LMS's three lists was
allocated by the second call (it lies at or beyond the arena sizes the
first call left behind), so no first-catalog entity remains reachable,
and the loaded categories are exactly the second catalog's records. -/
theorem load_lms_data_clears_prior_state (w : World) (l : Nat)
    (hl : l < w.lmss.length) (d1 d2 : MoodleData) :
    (∀ a ∈ (lmsAt (LMS.load_lms_data (LMS.load_lms_data w l d1) l d2) l).categories,
       (LMS.load_lms_data w l d1).cats.length ≤ a ∧
       a < (LMS.load_lms_data (LMS.load_lms_data w l d1) l d2).cats.length) ∧
    (∀ a ∈ (lmsAt (LMS.load_lms_data (LMS.load_lms_data w l d1) l d2) l).courses,
       (LMS.load_lms_data w l d1).crss.length ≤ a ∧
       a < (LMS.load_lms_data (LMS.load_lms_data w l d1) l d2).crss.length) ∧
    (∀ a ∈ (lmsAt (LMS.load_lms_data (LMS.load_lms_data w l d1) l d2) l).enrolled_courses,
       (LMS.load_lms_data w l d1).crss.length ≤ a ∧
       a < (LMS.load_lms_data (LMS.load_lms_data w l d1) l d2).crss.length) ∧
    ((lmsAt (LMS.load_lms_data (LMS.load_lms_data w l d1) l d2) l).categories.map
       (fun a =>
         ((LMS.load_lms_data (LMS.load_lms_data w l d1) l d2).cats[a]?).map
           Category.id) =
      (d2.categoriesResp.getD []).map (fun rr => some (rr.id.getD 0))) := by
  have h1 := load_lms_data_facts w l hl d1
  have hl1 : l < (LMS.load_lms_data w l d1).lmss.length := by
    rw [h1.1]; exact hl
  obtain ⟨g1, g2, g3, g4, g5, g6, g7⟩ :=
    load_lms_data_facts (LMS.load_lms_data w l d1) l hl1 d2
  refine ⟨?_, g5, g6, g7⟩
  intro a ha
  rw [g4] at ha
  have hb := (mem_addrRange a _ _).mp ha
  exact ⟨hb.1, by rw [g2]; exact hb.2⟩

/-- Witness for `load_lms_data_clears_prior_state`: after reloading with a
second catalog, the reachable categories carry exactly the second
catalog's id. -/
theorem load_lms_data_clears_prior_state_witness :
    (lmsAt (LMS.load_lms_data (LMS.load_lms_data connectWorld 0 orphanCatalog)
        0 catalogTwo) 0).categories.map
      (fun a =>
        ((LMS.load_lms_data (LMS.load_lms_data connectWorld 0 orphanCatalog)
          0 catalogTwo).cats[a]?).map Category.id) = [some 7] := by
  have h := (load_lms_data_clears_prior_state connectWorld 0 (by decide)
    orphanCatalog catalogTwo).2.2.2
  simpa [catalogTwo] using h

/-- Claim C7: if the enrolled-courses sub-step fails (the user lookup or
the enrolled fetch yields nothing) the LMS ends with an empty
`enrolled_courses` list, while `categories` and `courses` are exactly what
a run with the same category/course responses and a successful enrolled
sub-step produces — no sub-step failure aborts the others — and the
categories mirror the catalog's records. -/
theorem load_lms_data_substep_degradation (w : World) (l : Nat)
    (hl : l < w.lmss.length) (d d' : MoodleData)
    (hcats : d'.categoriesResp = d.categoriesResp)
    (hcrss : d'.coursesResp = d.coursesResp)
    (hfail : d.userResp = none ∨ d.usersCoursesResp = none ∨
       d.usersCoursesResp = some []) :
    (lmsAt (LMS.load_lms_data w l d) l).enrolled_courses = [] ∧
    (lmsAt (LMS.load_lms_data w l d) l).categories =
      (lmsAt (LMS.load_lms_data w l d') l).categories ∧
    (lmsAt (LMS.load_lms_data w l d) l).courses =
      (lmsAt (LMS.load_lms_data w l d') l).courses ∧
    ((lmsAt (LMS.load_lms_data w l d) l).categories.map
       (fun a => ((LMS.load_lms_data w l d).cats[a]?).map Category.id) =
      (d.categoriesResp.getD []).map (fun rr => some (rr.id.getD 0))) := by
  have hl0 : l < (w.setLms l (fun lm =>
      { lm with categories := [], courses := [],
                enrolled_courses := [] })).lmss.length := by
    rw [setLms_lmss_length]; exact hl
  have hclr := lmsAt_setLms_self w l (fun lm =>
      { lm with categories := [], courses := [], enrolled_courses := [] }) hl
  obtain ⟨a1, a2, a3, a4⟩ := load_categories_facts
    (w.setLms l (fun lm =>
      { lm with categories := [], courses := [], enrolled_courses := [] }))
    l hl0 d.categoriesResp
  have hlA : l < (LMS.load_categories
      (w.setLms l (fun lm =>
        { lm with categories := [], courses := [], enrolled_courses := [] }))
      l d.categoriesResp).lmss.length := by
    rw [a3]; exact hl0
  obtain ⟨b1, b2, b3, b4, b5, b6, b7⟩ := load_courses_facts
    (LMS.load_categories
      (w.setLms l (fun lm =>
        { lm with categories := [], courses := [], enrolled_courses := [] }))
      l d.categoriesResp) l hlA d.coursesResp
  have hlB : l < (LMS.load_courses
      (LMS.load_categories
        (w.setLms l (fun lm =>
          { lm with categories := [], courses := [], enrolled_courses := [] }))
        l d.categoriesResp) l d.coursesResp).lmss.length := by
    rw [b3]; exact hlA
  have hrun_d : LMS.load_lms_data w l d =
      LMS.load_courses
        (LMS.load_categories
          (w.setLms l (fun lm =>
            { lm with categories := [], courses := [], enrolled_courses := [] }))
          l d.categoriesResp) l d.coursesResp := by
    exact load_enrolled_noop _ l d.userResp d.usersCoursesResp hfail
  have hrun_d' : LMS.load_lms_data w l d' =
      LMS.load_enrolled_courses
        (LMS.load_courses
          (LMS.load_categories
            (w.setLms l (fun lm =>
              { lm with categories := [], courses := [], enrolled_courses := [] }))
            l d.categoriesResp) l d.coursesResp)
        l d'.userResp d'.usersCoursesResp := by
    show LMS.load_enrolled_courses
        (LMS.load_courses
          (LMS.load_categories
            (w.setLms l (fun lm =>
              { lm with categories := [], courses := [], enrolled_courses := [] }))
            l d'.categoriesResp) l d'.coursesResp)
        l d'.userResp d'.usersCoursesResp = _
    rw [hcats, hcrss]
  obtain ⟨c1', c2', c3', c4', c5', c6'⟩ := load_enrolled_facts
    (LMS.load_courses
      (LMS.load_categories
        (w.setLms l (fun lm =>
          { lm with categories := [], courses := [], enrolled_courses := [] }))
        l d.categoriesResp) l d.coursesResp) l hlB
    d'.userResp d'.usersCoursesResp
  refine ⟨?_, ?_, ?_, ?_⟩
  · rw [hrun_d, b5, a4, hclr]
  · rw [hrun_d, hrun_d', c4']
  · rw [hrun_d, hrun_d', c5']
  · exact (load_lms_data_facts w l hl d).2.2.2.2.2.2

/-- Witness for `load_lms_data_substep_degradation`: the same catalog with
and without a successful user lookup. -/
theorem load_lms_data_substep_degradation_witness :
    (lmsAt (LMS.load_lms_data connectWorld 0 catalogTwoNoUser) 0).enrolled_courses
      = [] ∧
    (lmsAt (LMS.load_lms_data connectWorld 0 catalogTwoNoUser) 0).categories =
      (lmsAt (LMS.load_lms_data connectWorld 0 catalogTwo) 0).categories :=
  ⟨(load_lms_data_substep_degradation connectWorld 0 (by decide)
      catalogTwoNoUser catalogTwo rfl rfl (Or.inl rfl)).1,
   (load_lms_data_substep_degradation connectWorld 0 (by decide)
      catalogTwoNoUser catalogTwo rfl rfl (Or.inl rfl)).2.1⟩

end MoodleManager
